import Mathlib

/-!
Verification development for the chess-100 repository.

The Python sources are shallowly embedded: each Python module gets a Lean
namespace, each function a Lean definition translated from the source.
Python dict-shaped game records become the `Game` structure (absent keys are
`Option`), Python `float` rates become `ℚ`, and `datetime.fromtimestamp`
derived fields (hour, calendar date, month) are modelled at UTC from the
unix timestamp.
-/

set_option maxHeartbeats 1000000
set_option maxRecDepth 10000

/-- One side of a game record: the `white`/`black` sub-object of a
chess.com game dict (`username`, `result`, `rating`). -/
structure Side where
  username : String
  result : String
  rating : Nat := 0
  deriving DecidableEq, Repr

/-- A raw game record as the scripts consume it (JSON-shaped dict).
Keys that a script reads with `.get` and that may be absent are `Option`;
`headers_white`/`headers_black` model `game["headers"]["White"/"Black"]`
read by `time_mgmt.process_chess_data`. -/
structure Game where
  end_time : Option Nat := none
  white : Side := ⟨"", "", 0⟩
  black : Side := ⟨"", "", 0⟩
  pgn : Option String := none
  time_control : Option String := none
  headers_white : Option String := none
  headers_black : Option String := none
  deriving DecidableEq, Repr

/-- Python truthiness of `game.get('end_time')`: falsy iff the key is
absent or the value is `0` (`if not end_time: continue`). -/
def endTimeTruthy : Option Nat → Bool
  | none => false
  | some t => t ≠ 0

/-- Python `datetime.fromtimestamp(t).hour`, modelled at UTC. -/
def hourOf (t : Nat) : Nat := t / 3600 % 24

/-- Days since the unix epoch for a timestamp. -/
def epochDays (t : Nat) : Nat := t / 86400

/-- Civil calendar date (year, month, day) from days since the unix epoch
(standard era-based conversion; valid for all `z : Nat`). -/
def civilFromDays (z : Nat) : Nat × Nat × Nat :=
  let z' := z + 719468
  let era := z' / 146097
  let doe := z' % 146097
  let yoe := (doe - doe / 1460 + doe / 36524 - doe / 146096) / 365
  let y := yoe + era * 400
  let doy := doe - (365 * yoe + yoe / 4 - yoe / 100)
  let mp := (5 * doy + 2) / 153
  let d := doy - (153 * mp + 2) / 5 + 1
  let m := if mp < 10 then mp + 3 else mp - 9
  (if m ≤ 2 then y + 1 else y, m, d)

/-- Python `datetime.fromtimestamp(t).strftime('%Y-%m')` modelled at UTC as a
(year, month) pair (the string format round-trips with the pair). -/
def monthKey (t : Nat) : Nat × Nat :=
  ((civilFromDays (epochDays t)).1, (civilFromDays (epochDays t)).2.1)

/-- Python `datetime.date()` for a timestamp, modelled at UTC as days since epoch
(two timestamps map to the same date iff they fall on the same UTC day). -/
def dateKey (t : Nat) : Nat := epochDays t

/-- Fixed Monday-to-Sunday day-name order (`days_order` in
`game_analysis.py`). -/
def days_order : List String :=
  ["Monday", "Tuesday", "Wednesday", "Thursday", "Friday", "Saturday", "Sunday"]

/-- Python `datetime.fromtimestamp(t).strftime('%A')` at UTC: the unix epoch
1970-01-01 was a Thursday, index 3 in the Monday-first order. -/
def dayName (t : Nat) : String := days_order.getD ((epochDays t + 3) % 7) ""

/-- Kernel-computable floor of a rational (`⌊q⌋ = q.num / q.den`). -/
def ratFloor (q : ℚ) : ℤ := q.num / (q.den : ℤ)

/-- Kernel-computable round-half-up of a rational. -/
def roundQ (q : ℚ) : ℤ := ratFloor (q + 1 / 2)

/-- Python `round(x, 1)` on a rate. Python rounds ties to even; `roundQ` here
rounds ties up — the two agree except exactly at ties, and both stay
within any interval containing the argument. -/
def round1 (q : ℚ) : ℚ := (roundQ (q * 10) : ℤ) / 10

/-- Stable insertion of a game into a list ascending by
`x.get('end_time', 0)`. -/
def insertByEndTime (g : Game) : List Game → List Game
  | [] => [g]
  | h :: t =>
    if h.end_time.getD 0 ≤ g.end_time.getD 0 then h :: insertByEndTime g t
    else g :: h :: t

/-- Python `sorted(games, key=lambda x: x.get('end_time', 0))` (stable,
ascending). -/
def sortByEndTime : List Game → List Game
  | [] => []
  | g :: t => insertByEndTime g (sortByEndTime t)

/-! ## chess_stats/stats_app/utils/game_analysis.py -/

namespace GameAnalysis

/-- Python `get_game_result(game, username)`: pick the matching side's result
string (case-sensitive `==` on usernames), then map it to
`'win'`/`'timeout'`/`'loss'`/`None`. -/
def get_game_result (game : Game) (username : String) : Option String :=
  let result : Option String :=
    if game.white.username = username then some game.white.result
    else if game.black.username = username then some game.black.result
    else none
  if result = some "win" then some "win"
  else if result = some "timeout" then some "timeout"
  else if result ∈ (["checkmated", "resigned", "lose", "abandoned"].map some) then some "loss"
  else none

/-- Running tally of the `analyze_games` loop. -/
structure Tally where
  wins : Nat := 0
  losses : Nat := 0
  timeouts : Nat := 0
  deriving DecidableEq, Repr

/-- One iteration of the `analyze_games` counting loop. -/
def tallyStep (username : String) (acc : Tally) (game : Game) : Tally :=
  let result := get_game_result game username
  if result = some "win" then { acc with wins := acc.wins + 1 }
  else if result = some "timeout" then
    { acc with timeouts := acc.timeouts + 1, losses := acc.losses + 1 }
  else if result = some "loss" then { acc with losses := acc.losses + 1 }
  else acc

/-- The dict returned by `analyze_games`. -/
structure AnalyzeResult where
  total_games : Nat
  wins : Nat
  losses : Nat
  timeouts : Nat
  win_rate : ℚ
  timeout_rate : ℚ
  deriving DecidableEq, Repr

/-- Python `analyze_games(games, username)`: `total_games = len(games)`, one
counting pass, then guarded rate computations. -/
def analyze_games (games : List Game) (username : String) : AnalyzeResult :=
  let total_games := games.length
  let t := games.foldl (tallyStep username) {}
  { total_games := total_games
    wins := t.wins
    losses := t.losses
    timeouts := t.timeouts
    win_rate := if total_games > 0 then (t.wins : ℚ) / total_games * 100 else 0
    timeout_rate := if total_games > 0 then (t.timeouts : ℚ) / total_games * 100 else 0 }

/-- One month bucket of `generate_monthly_report`'s `monthly_data`
defaultdict. -/
structure MonthData where
  games : Nat := 0
  wins : Nat := 0
  losses : Nat := 0
  timeouts : Nat := 0
  deriving DecidableEq, Repr

/-- The guard part of one `generate_monthly_report` iteration: `continue`
on falsy `end_time`, skip the counting block when the normalized result is
`None`; otherwise the bucket key and the result to count. -/
def monthlyUpd (username : String) (game : Game) : Option ((Nat × Nat) × String) :=
  match game.end_time with
  | none => none
  | some t =>
    if t = 0 then none
    else
      match get_game_result game username with
      | none => none
      | some r => some (monthKey t, r)

/-- The counting block of one `generate_monthly_report` iteration on one
bucket: `games += 1`, then the result-specific counter(s) (`timeout`
increments both `timeouts` and `losses`). -/
def bumpMonth (r : String) (d : MonthData) : MonthData :=
  let d := { d with games := d.games + 1 }
  if r = "win" then { d with wins := d.wins + 1 }
  else if r = "timeout" then { d with timeouts := d.timeouts + 1, losses := d.losses + 1 }
  else if r = "loss" then { d with losses := d.losses + 1 }
  else d

/-- One iteration of the `generate_monthly_report` loop on the
defaultdict, modelled as a total map from month keys to buckets. -/
def monthlyStep (username : String) (acc : Nat × Nat → MonthData) (game : Game) :
    Nat × Nat → MonthData :=
  match monthlyUpd username game with
  | none => acc
  | some (month, r) => fun k => if k = month then bumpMonth r (acc k) else acc k

/-- The accumulated `monthly_data` of `generate_monthly_report` (iterating
over the games sorted by end time); months never touched hold the
defaultdict zero bucket and produce no report row. -/
def monthlyData (games : List Game) (username : String) : Nat × Nat → MonthData :=
  (sortByEndTime games).foldl (monthlyStep username) fun _ => {}

/-- Python `Win_Rate_percent` column of a monthly report row:
`round(wins/games*100, 1) if games else 0`. -/
def monthly_win_rate (d : MonthData) : ℚ :=
  if d.games ≠ 0 then round1 ((d.wins : ℚ) / d.games * 100) else 0

/-- Python `Timeout_Rate_percent` column of a monthly report row. -/
def monthly_timeout_rate (d : MonthData) : ℚ :=
  if d.games ≠ 0 then round1 ((d.timeouts : ℚ) / d.games * 100) else 0

/-- One `daily_data` bucket of `analyze_time_stats` (keys
`games_played`, `wins`, `losses`, `timeouts` of the inner defaultdict). -/
structure TimeData where
  games_played : Nat := 0
  wins : Nat := 0
  losses : Nat := 0
  timeouts : Nat := 0
  deriving DecidableEq, Repr

/-- The guard part of one `analyze_time_stats` iteration.  The source
keys the defaultdict by the string `f"{day_name}-{hour}"` and splits it
back on `'-'`; day names contain no `'-'`, so the key is modelled as the
(day name, hour) pair. -/
def timeUpd (username : String) (game : Game) : Option ((String × Nat) × String) :=
  match game.end_time with
  | none => none
  | some t =>
    if t = 0 then none
    else
      match get_game_result game username with
      | none => none
      | some r => some ((dayName t, hourOf t), r)

/-- The counting block of one `analyze_time_stats` iteration on one
bucket: `games_played += 1`, then the counter named after the result
(here a `timeout` increments only `timeouts`). -/
def bumpTime (r : String) (d : TimeData) : TimeData :=
  let d := { d with games_played := d.games_played + 1 }
  if r = "win" then { d with wins := d.wins + 1 }
  else if r = "timeout" then { d with timeouts := d.timeouts + 1 }
  else if r = "loss" then { d with losses := d.losses + 1 }
  else d

/-- One iteration of the `analyze_time_stats` loop. -/
def timeStep (username : String) (acc : String × Nat → TimeData) (game : Game) :
    String × Nat → TimeData :=
  match timeUpd username game with
  | none => acc
  | some (key, r) => fun k => if k = key then bumpTime r (acc k) else acc k

/-- The accumulated `daily_data` of `analyze_time_stats` as a total map;
keys never touched hold the defaultdict zero bucket and produce no row. -/
def timeStatsData (games : List Game) (username : String) : String × Nat → TimeData :=
  (sortByEndTime games).foldl (timeStep username) fun _ => {}

/-- Python `win_rate_percent` of a time-stats row:
`round(wins / games_played * 100, 1)` (the source divides unguarded; rows
exist only for buckets with `games_played ≥ 1`). -/
def time_win_rate (d : TimeData) : ℚ := round1 ((d.wins : ℚ) / d.games_played * 100)

/-- Python `loss_rate_percent` of a time-stats row. -/
def time_loss_rate (d : TimeData) : ℚ := round1 ((d.losses : ℚ) / d.games_played * 100)

/-- Python `timeout_rate_percent` of a time-stats row. -/
def time_timeout_rate (d : TimeData) : ℚ := round1 ((d.timeouts : ℚ) / d.games_played * 100)

end GameAnalysis

/-! ## archive/consecutive.py -/

namespace Consecutive

/-- Python `get_game_result(game, username)` of `archive/consecutive.py`: unlike
the `game_analysis.py` version, `'timeout'` is in the loss list. -/
def get_game_result (game : Game) (username : String) : Option String :=
  let result : Option String :=
    if game.white.username = username then some game.white.result
    else if game.black.username = username then some game.black.result
    else none
  if result = some "win" then some "win"
  else if result ∈ (["checkmated", "timeout", "resigned", "lose", "abandoned"].map some) then
    some "loss"
  else none

/-- Python `calculate_probability(numerator, denominator)`:
`(numerator / denominator * 100) if denominator else 0`. -/
def calculate_probability (numerator denominator : Nat) : ℚ :=
  if denominator ≠ 0 then (numerator : ℚ) / denominator * 100 else 0

/-- Loop state of `analyze_streaks`: the four counters plus
`previous_result` / `previous_hour`. -/
structure StreakState where
  win_after_win : Nat := 0
  loss_after_loss : Nat := 0
  total_win_streaks : Nat := 0
  total_loss_streaks : Nat := 0
  previous_result : Option String := none
  previous_hour : Option Nat := none
  deriving DecidableEq, Repr

/-- One iteration of the `analyze_streaks` loop. Games with falsy
`end_time` or no normalized result are `continue`d before the state
update, leaving `previous_result`/`previous_hour` untouched. -/
def streakStep (username : String) (st : StreakState) (game : Game) : StreakState :=
  match game.end_time with
  | none => st
  | some t =>
    if t = 0 then st
    else
      let hour_of_day := hourOf t
      match get_game_result game username with
      | none => st
      | some cr =>
        let st1 :=
          if st.previous_result ≠ none ∧ st.previous_hour = some hour_of_day then
            if st.previous_result = some "win" then
              { st with
                total_win_streaks := st.total_win_streaks + 1
                win_after_win :=
                  if cr = "win" then st.win_after_win + 1 else st.win_after_win }
            else if st.previous_result = some "loss" then
              { st with
                total_loss_streaks := st.total_loss_streaks + 1
                loss_after_loss :=
                  if cr = "loss" then st.loss_after_loss + 1 else st.loss_after_loss }
            else st
          else st
        { st1 with previous_result := some cr, previous_hour := some hour_of_day }

/-- Final loop state of `analyze_streaks` over the (already sorted)
input. -/
def streakState (games_sorted : List Game) (username : String) : StreakState :=
  games_sorted.foldl (streakStep username) {}

/-- Python `analyze_streaks(games_sorted, username)`: the two returned
probabilities. -/
def analyze_streaks (games_sorted : List Game) (username : String) : ℚ × ℚ :=
  let st := streakState games_sorted username
  (calculate_probability st.win_after_win st.total_win_streaks,
   calculate_probability st.loss_after_loss st.total_loss_streaks)

/-- Loop state of `analyze_sequences`. -/
structure SeqState where
  win_after_win_loss : Nat := 0
  win_after_loss_win : Nat := 0
  total_win_loss : Nat := 0
  total_loss_win : Nat := 0
  previous_result : Option String := none
  previous_hour : Option Nat := none
  deriving DecidableEq, Repr

/-- The `analyze_sequences` loop: structural recursion so that
`games_sorted[i + 1]` is the head of the remaining list (the raw next
element, whether or not it will itself be skipped). -/
def seqLoop (username : String) (st : SeqState) : List Game → SeqState
  | [] => st
  | game :: rest =>
    match game.end_time with
    | none => seqLoop username st rest
    | some t =>
      if t = 0 then seqLoop username st rest
      else
        let hour_of_day := hourOf t
        match get_game_result game username with
        | none => seqLoop username st rest
        | some cr =>
          let next_game_result :=
            match rest.head? with
            | some g => get_game_result g username
            | none => none
          let st1 :=
            if st.previous_result ≠ none ∧ st.previous_hour = some hour_of_day then
              if st.previous_result = some "win" ∧ cr = "loss" then
                { st with
                  total_win_loss := st.total_win_loss + 1
                  win_after_win_loss :=
                    if next_game_result = some "win" then st.win_after_win_loss + 1
                    else st.win_after_win_loss }
              else if st.previous_result = some "loss" ∧ cr = "win" then
                { st with
                  total_loss_win := st.total_loss_win + 1
                  win_after_loss_win :=
                    if next_game_result = some "win" then st.win_after_loss_win + 1
                    else st.win_after_loss_win }
              else st
            else st
          seqLoop username
            { st1 with previous_result := some cr, previous_hour := some hour_of_day } rest

/-- Python `analyze_sequences(games_sorted, username)`: the two returned
probabilities. -/
def analyze_sequences (games_sorted : List Game) (username : String) : ℚ × ℚ :=
  let st := seqLoop username {} games_sorted
  (calculate_probability st.win_after_win_loss st.total_win_loss,
   calculate_probability st.win_after_loss_win st.total_loss_win)

end Consecutive

/-! ## Shared character/string helpers for the regex-based parsers

The Python parsers work through `re` patterns.  Each pattern is compiled
here by hand into character-list matchers; wherever a sub-pattern is
followed by a character disjoint from its class (e.g. `\d+` before a
literal `.`), maximal munch is complete and the matcher is deterministic,
and where genuine alternatives exist (`[^\{]+` before `\{?\[`) the matcher
collects them all. -/

/-- ASCII lower-casing of one character (`str.lower()` on ASCII). -/
def lowerChar (c : Char) : Char :=
  if 'A' ≤ c ∧ c ≤ 'Z' then Char.ofNat (c.toNat + 32) else c

/-- Python `str.lower()` on ASCII strings. -/
def lowerAscii (s : String) : String := String.mk (s.data.map lowerChar)

/-- Whitespace as matched by `\s` and stripped by `str.strip()`. -/
def isSpaceChar (c : Char) : Bool := c = ' ' ∨ c = '\t' ∨ c = '\n' ∨ c = '\r'

/-- Python `str.strip()`: drop leading and trailing whitespace. -/
def stripChars (cs : List Char) : List Char :=
  ((cs.dropWhile isSpaceChar).reverse.dropWhile isSpaceChar).reverse

/-- Does the second list begin with the first? -/
def beginsWith : List Char → List Char → Bool
  | [], _ => true
  | _ :: _, [] => false
  | a :: as, b :: bs => a = b && beginsWith as bs

/-- Python `str.split(sep)` for a single-character separator. -/
def splitOnChar (sep : Char) : List Char → List (List Char)
  | [] => [[]]
  | c :: rest =>
    let r := splitOnChar sep rest
    if c = sep then [] :: r
    else match r with
      | [] => [[c]]
      | h :: t => (c :: h) :: t

/-- First index at which `pat` occurs in `cs` (substring search). -/
def findFirstIdx (pat : List Char) : List Char → Option Nat
  | [] => if pat = [] then some 0 else none
  | c :: rest =>
    if beginsWith pat (c :: rest) then some 0
    else (findFirstIdx pat rest).map (· + 1)

/-- Value of a nonempty digit string. -/
def natOfDigits (cs : List Char) : Nat :=
  cs.foldl (fun n c => n * 10 + (c.toNat - '0'.toNat)) 0

/-- Python `int(s)` on a plain digit string; `none` models the `ValueError` on
anything else (signs/spaces that Python would also accept never occur in
these scripts' inputs). -/
def intOfChars (cs : List Char) : Option Nat :=
  if cs ≠ [] ∧ cs.all Char.isDigit then some (natOfDigits cs) else none

/-- Python `float(s)` on `digits` or `digits.digits`; `none` models the
`ValueError` otherwise. -/
def floatOfChars (cs : List Char) : Option ℚ :=
  let ip := cs.takeWhile Char.isDigit
  let rest := cs.drop ip.length
  if ip = [] then none
  else match rest with
    | [] => some (natOfDigits ip)
    | '.' :: fr =>
      if fr ≠ [] ∧ fr.all Char.isDigit then
        some ((natOfDigits ip : ℚ) + (natOfDigits fr : ℚ) / (10 ^ fr.length : ℚ))
      else none
    | _ => none

/-- Maximal nonempty digit run (`\d+` when followed by a non-digit). -/
def takeDigits1 (cs : List Char) : Option (List Char × List Char) :=
  let run := cs.takeWhile Char.isDigit
  if run.isEmpty then none else some (run, cs.drop run.length)

/-- First `some` produced by `f` along the list. -/
def firstSome {α β : Type} (f : α → Option β) : List α → Option β
  | [] => none
  | a :: t => match f a with
    | some b => some b
    | none => firstSome f t

/-- Stable insertion for a descending sort by a rational key
(`sorted(..., key=..., reverse=True)` keeps the original order of equal
keys; inserting after all strictly greater keys preserves that). -/
def insertDescBy {α : Type} (key : α → ℚ) (x : α) : List α → List α
  | [] => [x]
  | h :: t => if key h > key x then h :: insertDescBy key x t else x :: h :: t

/-- Stable descending sort by a rational key. -/
def sortDescBy {α : Type} (key : α → ℚ) (l : List α) : List α :=
  l.foldr (insertDescBy key) []

/-- Python `round(x, 2)` (same tie caveat as `round1`). -/
def round2 (q : ℚ) : ℚ := (roundQ (q * 100) : ℤ) / 100

/-! ## chess_analyzer.py -/

namespace ChessAnalyzer

/-- Python `ChessGameAnalyzer.get_player_result(game)`: the player name is the
hard-coded `'kalel1130'`; when white does not match, black's result is
returned without checking black's username.  (The `KeyError → ''` branch
is unreachable in this model because `Game` always carries both sides.) -/
def get_player_result (game : Game) : String :=
  if lowerAscii game.white.username = "kalel1130" then game.white.result
  else game.black.result

/-- The result-counting fields of the `get_statistics` stats dict.  The
accuracy / opening / ELO aggregations of the source read fields outside
this record model and are presentation-level; they are not embedded. -/
structure Stats where
  total_games : Nat
  wins : Nat
  losses : Nat
  draws : Nat
  deriving DecidableEq, Repr

/-- One iteration of the `get_statistics` result-counting loop:
`'win'` → wins, `'timeout'`/`'checkmated'`/`'resigned'` → losses,
everything else → draws. -/
def statsStep (s : Stats) (game : Game) : Stats :=
  let result := get_player_result game
  if result = "win" then { s with wins := s.wins + 1 }
  else if result ∈ ["timeout", "checkmated", "resigned"] then
    { s with losses := s.losses + 1 }
  else { s with draws := s.draws + 1 }

/-- Python `get_statistics` over the loaded game list. -/
def get_statistics (games : List Game) : Stats :=
  games.foldl statsStep { total_games := games.length, wins := 0, losses := 0, draws := 0 }

/-- Python `convert_clock_to_seconds(time_str)`: split on `':'`, read
`parts[0]` as minutes and `parts[1]` as float seconds (the source never
looks at a third part, so `H:MM:SS` strings would be misread — but such
strings never get here, the move regex only captures `\d+:\d+\.\d+`). -/
def convert_clock_to_seconds (time_str : String) : ℚ :=
  let parts := splitOnChar ':' time_str.data
  let minutes := natOfDigits (parts.getD 0 [])
  let seconds := (floatOfChars (parts.getD 1 [])).getD 0
  minutes * 60 + seconds

/-- One match of `move_pattern`
`(\d+)\. ([^\{]+)\{?\[%clk (\d+:\d+\.\d+)\]\}(?:\s+([^\{]+)\{?\[%clk (\d+:\d+\.\d+)\]\})?`. -/
structure MatchA where
  num : List Char
  white_move : List Char
  white_clock : List Char
  black_move : Option (List Char) := none
  black_clock : Option (List Char) := none
  deriving DecidableEq, Repr

/-- The clock sub-pattern `\d+:\d+\.\d+`: each digit run is followed by a
non-digit literal, so maximal munch is complete. -/
def clockA (cs : List Char) : Option (List Char × List Char) :=
  match takeDigits1 cs with
  | none => none
  | some (d1, r1) =>
    match r1 with
    | ':' :: r2 =>
      match takeDigits1 r2 with
      | none => none
      | some (d2, r3) =>
        match r3 with
        | '.' :: r4 =>
          match takeDigits1 r4 with
          | none => none
          | some (d3, r5) => some (d1 ++ ':' :: d2 ++ '.' :: d3, r5)
        | _ => none
    | _ => none

/-- All ways `([^\{]+)\{?\[` can consume a prefix of the input: the
capture is a nonempty run of non-`{` characters; it either stops right
before a `{` (which `\{?` then consumes, requiring `[` next) or right
before a `[` consumed as the literal `\[` (a `[` is itself a non-`{`
character, so every earlier `[` is a genuine alternative).  Returns
(capture, rest-after-the-`[`) pairs, shortest capture first; the callers
try them all, so the order only affects which captures are reported, and
only the existence of a match matters in the theorems below. -/
def moveTextAlts (acc : List Char) : List Char → List (List Char × List Char)
  | [] => []
  | c :: rest =>
    if c = '{' then
      if acc ≠ [] then
        match rest with
        | '[' :: r2 => [(acc.reverse, r2)]
        | _ => []
      else []
    else
      (if c = '[' ∧ acc ≠ [] then [(acc.reverse, rest)] else []) ++
        moveTextAlts (c :: acc) rest

/-- Pattern `\s+` followed by `([^\{]+)\{?\[%clk (clockA)\]\}` — the body of the
optional black-move group.  `\s+` is taken maximal-munch; a space could
also be absorbed into `[^\{]+`, but the optional group can only extend a
match that already exists, so this never affects match existence. -/
def blackPartA (cs : List Char) : Option ((List Char × List Char) × List Char) :=
  let ws := cs.takeWhile isSpaceChar
  if ws.isEmpty then none
  else
    firstSome
      (fun (mv, r2) =>
        if beginsWith "%clk ".data r2 then
          match clockA (r2.drop 5) with
          | some (ck, r3) =>
            match r3 with
            | ']' :: '}' :: r4 => some ((mv, ck), r4)
            | _ => none
          | none => none
        else none)
      (moveTextAlts [] (cs.drop ws.length))

/-- Match of `move_pattern` anchored at the start of `cs`; returns the
captures and the rest of the input after the match. -/
def matchAAt (cs : List Char) : Option (MatchA × List Char) :=
  match takeDigits1 cs with
  | none => none
  | some (num, r1) =>
    match r1 with
    | '.' :: ' ' :: r2 =>
      firstSome
        (fun (mv, r3) =>
          if beginsWith "%clk ".data r3 then
            match clockA (r3.drop 5) with
            | some (ck, r4) =>
              match r4 with
              | ']' :: '}' :: r5 =>
                match blackPartA r5 with
                | some ((bmv, bck), r6) =>
                  some ({ num := num, white_move := mv, white_clock := ck,
                          black_move := some bmv, black_clock := some bck }, r6)
                | none =>
                  some ({ num := num, white_move := mv, white_clock := ck }, r5)
              | _ => none
            | none => none
          else none)
        (moveTextAlts [] r2)
    | _ => none

/-- Python `re.finditer(move_pattern, ...)`: scan left to right, resuming after
each match (every match consumes at least one character, so a fuel of the
input length suffices). -/
def finditerA (fuel : Nat) (cs : List Char) : List MatchA :=
  match fuel with
  | 0 => []
  | fuel + 1 =>
    match cs with
    | [] => []
    | _ :: tail =>
      match matchAAt cs with
      | some (m, rest) => m :: finditerA fuel rest
      | none => finditerA fuel tail

/-- One entry of the `move_times` list built by
`get_move_timing_analysis`. -/
structure MoveTime where
  move_number : Nat
  time_spent : ℚ
  move : String
  remaining_time : ℚ
  color : String
  deriving DecidableEq, Repr

/-- State of the `for match in matches[1:]` loop. -/
structure TimingLoopState where
  last_white_time : ℚ
  last_black_time : ℚ
  move_times : List MoveTime
  deriving Repr

/-- One iteration of the `matches[1:]` loop of
`get_move_timing_analysis`. -/
def timingStep (is_white : Bool) (st : TimingLoopState) (m : MatchA) : TimingLoopState :=
  let move_num := natOfDigits m.num
  let white_time := convert_clock_to_seconds (String.mk m.white_clock)
  let white_spent := st.last_white_time - white_time
  let st := { st with last_white_time := white_time }
  let st :=
    if is_white ∧ white_spent > 0 then
      { st with
        move_times := st.move_times ++
          [{ move_number := move_num, time_spent := white_spent,
             move := String.mk (stripChars m.white_move),
             remaining_time := white_time, color := "White" }] }
    else st
  match m.black_move, m.black_clock with
  | some bmv, some bck =>
    let black_time := convert_clock_to_seconds (String.mk bck)
    let black_spent := st.last_black_time - black_time
    let st := { st with last_black_time := black_time }
    if ¬is_white ∧ black_spent > 0 then
      { st with
        move_times := st.move_times ++
          [{ move_number := move_num, time_spent := black_spent,
             move := String.mk (stripChars bmv),
             remaining_time := black_time, color := "Black" }] }
    else st
  | _, _ => st

/-- Python `s.split(sep)` for a multi-character separator (`sep` nonempty; fuel
bounds the recursion by the input length). -/
def splitOnSeq (sep : List Char) : Nat → List Char → List (List Char)
  | 0, cs => [cs]
  | fuel + 1, cs =>
    match findFirstIdx sep cs with
    | none => [cs]
    | some i => cs.take i :: splitOnSeq sep fuel (cs.drop (i + sep.length))

/-- Python `get_move_timing_analysis(game)`: split the PGN on `'\n\n'`, run the
move regex over the moves section, establish the initial clocks from the
first match, process the remaining matches, and sort the result by time
spent descending.  The `except` that returns `[]` on any error is
unreachable in this total model. -/
def get_move_timing_analysis (game : Game) : List MoveTime :=
  let is_white := lowerAscii game.white.username = "kalel1130"
  match game.pgn with
  | none => []
  | some pgn =>
    let pgn_parts := splitOnSeq "\n\n".data (pgn.data.length + 1) pgn.data
    if pgn_parts.length < 2 then []
    else
      let moves_text := pgn_parts.getD 1 []
      let ms := finditerA moves_text.length moves_text
      match ms with
      | [] => []
      | m0 :: rest =>
        let initial_white_time := convert_clock_to_seconds (String.mk m0.white_clock)
        let initial_black_time :=
          match m0.black_clock with
          | some bck => convert_clock_to_seconds (String.mk bck)
          | none => initial_white_time
        let st := rest.foldl (timingStep is_white)
          { last_white_time := initial_white_time
            last_black_time := initial_black_time
            move_times := [] }
        sortDescBy (·.time_spent) st.move_times

end ChessAnalyzer

/-! ## time_mgmt.py -/

namespace TimeMgmt

/-- Python `clock_to_seconds(clock)`: split on `':'`; `H:MM:SS(.s)` or `MM:SS(.s)`;
`int(seconds)` truncates (the values are nonnegative, so truncation is
`⌊·⌋`); any parse failure is the `except` branch returning 0. -/
def clock_to_seconds (clock : String) : ℤ :=
  let parts := splitOnChar ':' clock.data
  if parts.length = 3 then
    ((do
      let h ← intOfChars (parts.getD 0 [])
      let m ← intOfChars (parts.getD 1 [])
      let s ← floatOfChars (parts.getD 2 [])
      pure ((h : ℤ) * 3600 + m * 60 + ratFloor s)).getD 0)
  else if parts.length = 2 then
    ((do
      let m ← intOfChars (parts.getD 0 [])
      let s ← floatOfChars (parts.getD 1 [])
      pure ((m : ℤ) * 60 + ratFloor s)).getD 0)
  else 0

/-- Python `convert_time_control(s)`: `int(s)`, else `n/d` parsed as a fraction
with `int(n * (86400 / d))`, else (ValueError / ZeroDivisionError) the
600-second default. -/
def convert_time_control (s : String) : ℤ :=
  match intOfChars s.data with
  | some n => n
  | none =>
    match splitOnChar '/' s.data with
    | [a, b] =>
      ((do
        let na ← intOfChars a
        let nb ← intOfChars b
        if nb = 0 then (none : Option ℤ)
        else pure (ratFloor ((na : ℚ) * (86400 / (nb : ℚ))))).getD 600)
    | _ => 600

/-- The character class `[a-zA-Z0-9#+=]` of `move_clock_pattern`. -/
def isMoveChar (c : Char) : Bool :=
  c.isDigit ∨ ('a' ≤ c ∧ c ≤ 'z') ∨ ('A' ≤ c ∧ c ≤ 'Z') ∨ c = '#' ∨ c = '+' ∨ c = '='

/-- Maximal nonempty run of move characters (`[a-zA-Z0-9#+=]+` is always
followed by `\s` here, disjoint from the class, so maximal munch is
complete). -/
def takeMoveChars1 (cs : List Char) : Option (List Char × List Char) :=
  let run := cs.takeWhile isMoveChar
  if run.isEmpty then none else some (run, cs.drop run.length)

/-- Exactly two digits (`\d{2}`). -/
def twoDigits : List Char → Option (List Char × List Char)
  | a :: b :: r => if a.isDigit ∧ b.isDigit then some ([a, b], r) else none
  | _ => none

/-- The clock sub-pattern `\d+:\d{2}:\d{2}(\.\d)?` of
`move_clock_pattern`.  The optional fractional group is taken greedily;
if it is present the following literal `]` could not match the `.`
anyway, so greed is complete. -/
def clockB (cs : List Char) : Option (List Char × List Char) :=
  match takeDigits1 cs with
  | some (d1, ':' :: r2) =>
    match twoDigits r2 with
    | some (d2, ':' :: r4) =>
      match twoDigits r4 with
      | some (d3, r5) =>
        match r5 with
        | '.' :: c :: r6 =>
          if c.isDigit then some (d1 ++ ':' :: d2 ++ ':' :: d3 ++ ['.', c], r6)
          else some (d1 ++ ':' :: d2 ++ ':' :: d3, r5)
        | _ => some (d1 ++ ':' :: d2 ++ ':' :: d3, r5)
      | _ => none
    | _ => none
  | _ => none

/-- One match of `move_clock_pattern`
`(\d+\.\s([a-zA-Z0-9#+=]+)\s\{\[%clk\s(\d+:\d{2}:\d{2}(\.\d)?)\]\})\s(\d+\.\.\.\s([a-zA-Z0-9#+=]+)\s\{\[%clk\s(\d+:\d{2}:\d{2}(\.\d)?)\]\})?`;
`g1` is group(1), the full white segment, which the source uses as the
"move number". -/
structure MatchB where
  g1 : List Char
  white_move : List Char
  white_clock : List Char
  black_move : Option (List Char) := none
  black_clock : Option (List Char) := none
  deriving DecidableEq, Repr

/-- Pattern `\d+\.\s MOVE \s\{\[%clk\s CLOCK \]\}` — the white segment (group 1
body); every sub-pattern is followed by a disjoint literal, so the parse
is deterministic and complete. -/
def whitePartB (cs : List Char) : Option ((List Char × List Char) × List Char) :=
  match takeDigits1 cs with
  | some (_num, '.' :: c :: r2) =>
    if isSpaceChar c then
      match takeMoveChars1 r2 with
      | some (mv, c2 :: r4) =>
        if isSpaceChar c2 ∧ beginsWith "\x7b[%clk".data r4 then
          match r4.drop 6 with
          | c3 :: r5 =>
            if isSpaceChar c3 then
              match clockB r5 with
              | some (ck, ']' :: '}' :: r6) => some ((mv, ck), r6)
              | _ => none
            else none
          | [] => none
        else none
      | _ => none
    else none
  | _ => none

/-- Pattern `\d+\.\.\.\s MOVE \s\{\[%clk\s CLOCK \]\}` — the optional black
segment (group 5 body). -/
def blackPartB (cs : List Char) : Option ((List Char × List Char) × List Char) :=
  match takeDigits1 cs with
  | some (_num, '.' :: '.' :: '.' :: c :: r2) =>
    if isSpaceChar c then
      match takeMoveChars1 r2 with
      | some (mv, c2 :: r4) =>
        if isSpaceChar c2 ∧ beginsWith "\x7b[%clk".data r4 then
          match r4.drop 6 with
          | c3 :: r5 =>
            if isSpaceChar c3 then
              match clockB r5 with
              | some (ck, ']' :: '}' :: r6) => some ((mv, ck), r6)
              | _ => none
            else none
          | [] => none
        else none
      | _ => none
    else none
  | _ => none

/-- Match of `move_clock_pattern` anchored at the start of `cs`: white
segment, one mandatory `\s`, then the optional black segment taken
greedily (the pattern ends there, so greed is complete). -/
def matchBAt (cs : List Char) : Option (MatchB × List Char) :=
  match whitePartB cs with
  | none => none
  | some ((mv, ck), r1) =>
    let g1 := cs.take (cs.length - r1.length)
    match r1 with
    | c :: r2 =>
      if isSpaceChar c then
        match blackPartB r2 with
        | some ((bmv, bck), r3) =>
          some ({ g1 := g1, white_move := mv, white_clock := ck,
                  black_move := some bmv, black_clock := some bck }, r3)
        | none => some ({ g1 := g1, white_move := mv, white_clock := ck }, r2)
      else none
    | [] => none

/-- Python `re.finditer(move_clock_pattern, moves)`. -/
def finditerB (fuel : Nat) (cs : List Char) : List MatchB :=
  match fuel with
  | 0 => []
  | fuel + 1 =>
    match cs with
    | [] => []
    | _ :: tail =>
      match matchBAt cs with
      | some (m, rest) => m :: finditerB fuel rest
      | none => finditerB fuel tail

/-- Python `moves_pattern = r'\n\n(1\..*)'` with DOTALL, `.search(pgn)` then
`group(1).strip()`; `''` when there is no match. -/
def movesOf (pgn : List Char) : List Char :=
  match findFirstIdx "\n\n1.".data pgn with
  | some i => stripChars (pgn.drop (i + 2))
  | none => []

/-- One `think` dict of `find_top_thinks` (`time_spent_formatted`, a
display string, is omitted). -/
structure Think where
  move_number : String
  move : String
  clock : String
  time_spent : ℚ
  deriving DecidableEq, Repr

/-- Python `find_top_thinks(moves, top_n=3)`: `move_number` is
`full_move.split('.')[0]` of the group-1 text; sort descending by
`time_spent` (stable, like Python's `sorted`) and keep the top N. -/
def find_top_thinks (moves : List (List Char × List Char × List Char × ℚ))
    (top_n : Nat := 3) : List Think :=
  let thinks := moves.map fun md =>
    { move_number := String.mk ((splitOnChar '.' md.1).getD 0 [])
      move := String.mk md.2.1
      clock := String.mk md.2.2.1
      time_spent := md.2.2.2 : Think }
  (sortDescBy (fun t => t.time_spent) thinks).take top_n

/-- State of the per-game `for match in ... finditer(moves)` loop. -/
structure MovesState where
  current_white_time : ℤ
  current_black_time : ℤ
  white_moves : List (List Char × List Char × List Char × ℚ)
  black_moves : List (List Char × List Char × List Char × ℚ)
  deriving Repr

/-- One iteration of that loop: the white half always fires (the captures
are nonempty strings, hence truthy); the black half fires when the
optional group matched. -/
def movesStep (st : MovesState) (m : MatchB) : MovesState :=
  let st :=
    if m.white_move ≠ [] ∧ m.white_clock ≠ [] then
      let white_time := clock_to_seconds (String.mk m.white_clock)
      let time_spent := round2 ((st.current_white_time : ℚ) - (white_time : ℚ))
      { st with
        current_white_time := white_time
        white_moves := st.white_moves ++ [(m.g1, m.white_move, m.white_clock, time_spent)] }
    else st
  match m.black_move, m.black_clock with
  | some bmv, some bck =>
    let black_time := clock_to_seconds (String.mk bck)
    let time_spent := round2 ((st.current_black_time : ℚ) - (black_time : ℚ))
    { st with
      current_black_time := black_time
      black_moves := st.black_moves ++ [(m.g1, bmv, bck, time_spent)] }
  | _, _ => st

/-- The fields of one `processed_games` entry that carry analysis content
(`pgn`, `time_control`, `end_time_utc`, `url` are passthrough). -/
structure ProcessedGame where
  player_color : String
  player_top_thinks : List Think
  deriving Repr

/-- Python `process_chess_data(games_json, player_name, num_games)`: per game,
read the PGN and time control, decide the player's colour from
`headers.get("White", "")`, extract the moves text, run the move/clock
regex, accumulate per-side (move, clock, time-spent) tuples starting both
clocks at the time control, and keep the player's top thinks. -/
def process_chess_data (games : List Game) (player_name : String)
    (num_games : Nat := 3) : List ProcessedGame :=
  (games.take num_games).map fun game =>
    let pgn := (game.pgn.getD "").data
    let time_control := convert_time_control (game.time_control.getD "600")
    let player_is_white := game.headers_white.getD "" = player_name
    let moves := movesOf pgn
    let ms := finditerB moves.length moves
    let st := ms.foldl movesStep
      { current_white_time := time_control, current_black_time := time_control,
        white_moves := [], black_moves := [] }
    let player_moves := if player_is_white then st.white_moves else st.black_moves
    { player_color := if player_is_white then "White" else "Black"
      player_top_thinks := find_top_thinks player_moves 3 }

end TimeMgmt

/-! ## archive/daily_proba.py -/

namespace DailyProba

/-- Python `get_game_result(game, username)` of `archive/daily_proba.py`: the raw
result string of the matching side, with no vocabulary mapping. -/
def get_game_result (game : Game) (username : String) : Option String :=
  if game.white.username = username then some game.white.result
  else if game.black.username = username then some game.black.result
  else none

/-- Ascending stable insertion for `statistics.median`'s internal sort. -/
def insertRat (x : ℚ) : List ℚ → List ℚ
  | [] => [x]
  | h :: t => if x ≤ h then x :: h :: t else h :: insertRat x t

/-- Ascending sort of the data, as `statistics.median` performs. -/
def sortRat (l : List ℚ) : List ℚ := l.foldr insertRat []

/-- Python `statistics.median(data)`: `StatisticsError` on empty data (modelled
as `Except.error`), middle element for odd length, mean of the two middle
elements for even length. -/
def median (data : List ℚ) : Except String ℚ :=
  let s := sortRat data
  let n := s.length
  if n = 0 then .error "no median for empty data"
  else if n % 2 = 1 then .ok (s.getD (n / 2) 0)
  else .ok ((s.getD (n / 2 - 1) 0 + s.getD (n / 2) 0) / 2)

/-- Python `games_per_day[end_date] += 1` on a defaultdict, keeping insertion
order of the keys (Python dicts preserve it). -/
def bumpDay (d : Nat) : List (Nat × Nat) → List (Nat × Nat)
  | [] => [(d, 1)]
  | (k, v) :: t => if k = d then (k, v + 1) :: t else (k, v) :: bumpDay d t

/-- The `games_per_day` accumulation of
`calculate_average_and_median_games`: games with truthy `end_time` are
counted per UTC date. -/
def games_per_day (games : List Game) : List (Nat × Nat) :=
  games.foldl
    (fun acc g =>
      match g.end_time with
      | some t => if t ≠ 0 then bumpDay (dateKey t) acc else acc
      | none => acc)
    []

/-- Python `calculate_average_and_median_games(games)`.  `unique_days` gains a
member exactly when `games_per_day` gains a key, so `len(unique_days)` is
the key count; the average is guarded (`if unique_days else 0`), the
median is not. -/
def calculate_average_and_median_games (games : List Game) : Except String (ℚ × ℚ) :=
  let perDay := games_per_day games
  let average_games : ℚ :=
    if perDay.length ≠ 0 then (games.length : ℚ) / perDay.length else 0
  match median (perDay.map fun p => (p.2 : ℚ)) with
  | .error e => .error e
  | .ok m => .ok (average_games, m)

end DailyProba

/-! ## chess_stats/stats_app/views.py -/

namespace Views

/-- The player/opponent fields `process_game` fills when a side matches
(`end_time_converted`, accuracies, `url`, `time_class` are passthrough
presentation fields and are not embedded; `rating` is always present in
this record model, so `.get('rating', 'N/A')` yields the rating). -/
structure GameData where
  player_color : Option String := none
  opponent_color : Option String := none
  opponent_username : Option String := none
  player_rating : Option Nat := none
  opponent_rating : Option Nat := none
  deriving DecidableEq, Repr

/-- Python `process_game(game, username)`: usernames are `.strip()`ped and
compared with `.lower()` on both sides; when neither matches, none of the
player fields are set. -/
def process_game (game : Game) (username : String) : GameData :=
  let white_username := String.mk (stripChars game.white.username.data)
  let black_username := String.mk (stripChars game.black.username.data)
  if lowerAscii white_username = lowerAscii username then
    { player_color := some "white", opponent_color := some "black"
      opponent_username := some black_username
      player_rating := some game.white.rating, opponent_rating := some game.black.rating }
  else if lowerAscii black_username = lowerAscii username then
    { player_color := some "black", opponent_color := some "white"
      opponent_username := some white_username
      player_rating := some game.black.rating, opponent_rating := some game.white.rating }
  else {}

end Views

namespace GameAnalysis

/-- Bucket invariant of `generate_monthly_report`: every counted game adds
one to `games` and exactly one to `wins` or `losses`, and `timeouts` only
grows together with `losses`. -/
def MonthInv (d : MonthData) : Prop := d.wins + d.losses = d.games ∧ d.timeouts ≤ d.losses

/-- Bucket invariant of `analyze_time_stats`: every counted game adds one
to `games_played` and exactly one of `wins`/`losses`/`timeouts`. -/
def TimeInv (d : TimeData) : Prop := d.wins + d.losses + d.timeouts = d.games_played

end GameAnalysis

/-! ## Concrete inputs used by the claim theorems -/

/-- Three games for "alice", all ending within hour 10 of the same day,
with normalized results win, win, loss. -/
def c4games : List Game :=
  [{ end_time := some 36000, white := ⟨"alice", "win", 0⟩, black := ⟨"bob", "checkmated", 0⟩ },
   { end_time := some 36060, white := ⟨"alice", "win", 0⟩, black := ⟨"bob", "resigned", 0⟩ },
   { end_time := some 36120, white := ⟨"alice", "checkmated", 0⟩, black := ⟨"bob", "win", 0⟩ }]

/-- A game in which neither side is the target user "carol". -/
def c2game : Game :=
  { end_time := some 36000, white := ⟨"dave", "win", 0⟩, black := ⟨"bob", "checkmated", 0⟩ }

/-- A game for "alice" with an unknown result string and a present
end_time. -/
def staleGame : Game :=
  { end_time := some 36060, white := ⟨"alice", "stalemate", 0⟩, black := ⟨"bob", "stalemate", 0⟩ }

/-- Wins for "alice" at 10:00:00 and 10:02:00 of the same UTC day. -/
def winGameA : Game :=
  { end_time := some 36000, white := ⟨"alice", "win", 0⟩, black := ⟨"bob", "checkmated", 0⟩ }

def winGameB : Game :=
  { end_time := some 36120, white := ⟨"alice", "win", 0⟩, black := ⟨"bob", "resigned", 0⟩ }

/-- The notation text of the spec's move-timing example. -/
def c5text : String :=
  "1. e4 {[%clk 0:05:00]} 1... e5 {[%clk 0:05:00]} 2. Nf3 {[%clk 0:04:50]} 2... Nc6 {[%clk 0:04:48]}"

/-- The example game as `chess_analyzer.get_move_timing_analysis` consumes
it: the PGN is a header block, a blank line, then the notation text, and
the target player "Kalel1130" is White. -/
def c5gameCA : Game :=
  { end_time := some 36000, white := ⟨"Kalel1130", "win", 0⟩,
    black := ⟨"opponent", "checkmated", 0⟩, pgn := some ("header\n\n" ++ c5text) }

/-- The example game as `time_mgmt.process_chess_data` consumes it: same
PGN, a 300-second (5-minute) time control, and the player name in the
headers. -/
def c5gameTM : Game :=
  { end_time := some 36000, pgn := some ("header\n\n" ++ c5text),
    time_control := some "300", headers_white := some "Kalel1130" }


/-! ## Helper lemmas -/

namespace GameAnalysis

lemma get_game_result_cases (g : Game) (u : String) :
    get_game_result g u = none ∨ get_game_result g u = some "win" ∨
      get_game_result g u = some "timeout" ∨ get_game_result g u = some "loss" := by
  unfold get_game_result
  by_cases hw : g.white.username = u <;> by_cases hb : g.black.username = u <;>
    simp only [hw, hb, if_true, if_false, ite_true, ite_false] <;>
    split_ifs <;> simp

lemma get_game_result_none_of_no_match (g : Game) (u : String)
    (hw : g.white.username ≠ u) (hb : g.black.username ≠ u) :
    get_game_result g u = none := by
  simp [get_game_result, hw, hb]

lemma tallyStep_skip (u : String) (acc : Tally) (g : Game)
    (h : get_game_result g u = none) : tallyStep u acc g = acc := by
  simp [tallyStep, h]

lemma monthlyUpd_none (u : String) (g : Game) (h : get_game_result g u = none) :
    monthlyUpd u g = none := by
  unfold monthlyUpd
  cases g.end_time <;> simp [h]

lemma timeUpd_none (u : String) (g : Game) (h : get_game_result g u = none) :
    timeUpd u g = none := by
  unfold timeUpd
  cases g.end_time <;> simp [h]

lemma monthlyStep_skip (u : String) (acc : Nat × Nat → MonthData) (g : Game)
    (h : monthlyUpd u g = none) : monthlyStep u acc g = acc := by
  simp [monthlyStep, h]

lemma timeStep_skip (u : String) (acc : String × Nat → TimeData) (g : Game)
    (h : timeUpd u g = none) : timeStep u acc g = acc := by
  simp [timeStep, h]

lemma bumpMonth_comm (r1 r2 : String) (d : MonthData) :
    bumpMonth r1 (bumpMonth r2 d) = bumpMonth r2 (bumpMonth r1 d) := by
  unfold bumpMonth
  split_ifs <;> rfl

lemma bumpTime_comm (r1 r2 : String) (d : TimeData) :
    bumpTime r1 (bumpTime r2 d) = bumpTime r2 (bumpTime r1 d) := by
  unfold bumpTime
  split_ifs <;> rfl

lemma monthlyStep_comm (u : String) (z : Nat × Nat → MonthData) (x y : Game) :
    monthlyStep u (monthlyStep u z x) y = monthlyStep u (monthlyStep u z y) x := by
  unfold monthlyStep
  rcases hux : monthlyUpd u x with _ | ⟨kx, rx⟩ <;>
    rcases huy : monthlyUpd u y with _ | ⟨ky, ry⟩ <;> simp
  funext k
  by_cases h1 : k = kx <;> by_cases h2 : k = ky
  · subst h1
    subst h2
    simp only [if_pos rfl]
    exact bumpMonth_comm ry rx (z k)
  · subst h1
    simp [h2]
  · subst h2
    simp [h1]
  · simp [h1, h2]

lemma timeStep_comm (u : String) (z : String × Nat → TimeData) (x y : Game) :
    timeStep u (timeStep u z x) y = timeStep u (timeStep u z y) x := by
  unfold timeStep
  rcases hux : timeUpd u x with _ | ⟨kx, rx⟩ <;>
    rcases huy : timeUpd u y with _ | ⟨ky, ry⟩ <;> simp
  funext k
  by_cases h1 : k = kx <;> by_cases h2 : k = ky
  · subst h1
    subst h2
    simp only [if_pos rfl]
    exact bumpTime_comm ry rx (z k)
  · subst h1
    simp [h2]
  · subst h2
    simp [h1]
  · simp [h1, h2]

end GameAnalysis

lemma foldl_middle_skip {α β : Type} (f : β → α → β) (g : α) (hg : ∀ b, f b g = b)
    (l1 l2 : List α) (init : β) :
    List.foldl f init (l1 ++ g :: l2) = List.foldl f init (l1 ++ l2) := by
  induction l1 generalizing init with
  | nil => simp [hg]
  | cons a t ih => simp only [List.cons_append, List.foldl_cons]; exact ih (f init a)

lemma insertByEndTime_perm (g : Game) (l : List Game) :
    (insertByEndTime g l).Perm (g :: l) := by
  induction l with
  | nil => exact .refl _
  | cons h t ih =>
    unfold insertByEndTime
    split_ifs
    · exact (ih.cons h).trans (List.Perm.swap g h t)
    · exact .refl _

lemma sortByEndTime_perm (l : List Game) : (sortByEndTime l).Perm l := by
  induction l with
  | nil => exact .refl _
  | cons g t ih =>
    exact (insertByEndTime_perm g (sortByEndTime t)).trans (ih.cons g)

namespace GameAnalysis

lemma monthlyData_eq_foldl (games : List Game) (u : String) :
    monthlyData games u = games.foldl (monthlyStep u) fun _ => {} := by
  unfold monthlyData
  exact (sortByEndTime_perm games).foldl_eq'
    (fun x _ y _ z => monthlyStep_comm u z x y) _

lemma timeStatsData_eq_foldl (games : List Game) (u : String) :
    timeStatsData games u = games.foldl (timeStep u) fun _ => {} := by
  unfold timeStatsData
  exact (sortByEndTime_perm games).foldl_eq'
    (fun x _ y _ z => timeStep_comm u z x y) _

lemma monthlyData_middle (u : String) (g : Game) (hg : monthlyUpd u g = none)
    (l1 l2 : List Game) :
    monthlyData (l1 ++ g :: l2) u = monthlyData (l1 ++ l2) u := by
  rw [monthlyData_eq_foldl, monthlyData_eq_foldl]
  exact foldl_middle_skip _ g (fun b => monthlyStep_skip u b g hg) l1 l2 _

lemma timeStatsData_middle (u : String) (g : Game) (hg : timeUpd u g = none)
    (l1 l2 : List Game) :
    timeStatsData (l1 ++ g :: l2) u = timeStatsData (l1 ++ l2) u := by
  rw [timeStatsData_eq_foldl, timeStatsData_eq_foldl]
  exact foldl_middle_skip _ g (fun b => timeStep_skip u b g hg) l1 l2 _

end GameAnalysis

namespace GameAnalysis

lemma monthlyUpd_result (u : String) (g : Game) (k : Nat × Nat) (r : String)
    (h : monthlyUpd u g = some (k, r)) :
    r = "win" ∨ r = "timeout" ∨ r = "loss" := by
  unfold monthlyUpd at h
  rcases hg : g.end_time with _ | t <;> rw [hg] at h <;> dsimp only at h
  · exact Option.noConfusion h
  · split_ifs at h
    all_goals
      first
        | exact Option.noConfusion h
        | (rcases get_game_result_cases g u with hc | hc | hc | hc <;>
            rw [hc] at h <;> simp_all)

lemma timeUpd_result (u : String) (g : Game) (k : String × Nat) (r : String)
    (h : timeUpd u g = some (k, r)) :
    r = "win" ∨ r = "timeout" ∨ r = "loss" := by
  unfold timeUpd at h
  rcases hg : g.end_time with _ | t <;> rw [hg] at h <;> dsimp only at h
  · exact Option.noConfusion h
  · split_ifs at h
    all_goals
      first
        | exact Option.noConfusion h
        | (rcases get_game_result_cases g u with hc | hc | hc | hc <;>
            rw [hc] at h <;> simp_all)

lemma bumpMonth_inv (r : String) (hr : r = "win" ∨ r = "timeout" ∨ r = "loss")
    (d : MonthData) (hd : MonthInv d) : MonthInv (bumpMonth r d) := by
  rcases hr with h | h | h <;> subst h <;>
    simp only [bumpMonth, MonthInv, if_true, if_false, ite_true, ite_false,
      String.reduceEq, reduceIte] at hd ⊢ <;> omega

lemma bumpTime_inv (r : String) (hr : r = "win" ∨ r = "timeout" ∨ r = "loss")
    (d : TimeData) (hd : TimeInv d) : TimeInv (bumpTime r d) := by
  rcases hr with h | h | h <;> subst h <;>
    simp only [bumpTime, TimeInv, if_true, if_false, ite_true, ite_false,
      String.reduceEq, reduceIte] at hd ⊢ <;> omega

lemma monthly_fold_inv (u : String) (l : List Game) (acc : Nat × Nat → MonthData)
    (hacc : ∀ k, MonthInv (acc k)) :
    ∀ k, MonthInv (l.foldl (monthlyStep u) acc k) := by
  induction l generalizing acc with
  | nil => exact hacc
  | cons g t ih =>
    refine ih _ ?_
    intro k
    unfold monthlyStep
    rcases hu : monthlyUpd u g with _ | ⟨kk, r⟩
    · exact hacc k
    · by_cases hk : k = kk
      · subst hk
        simp only [if_pos rfl]
        exact bumpMonth_inv r (monthlyUpd_result u g k r hu) _ (hacc k)
      · simp only [if_neg hk]
        exact hacc k

lemma time_fold_inv (u : String) (l : List Game) (acc : String × Nat → TimeData)
    (hacc : ∀ k, TimeInv (acc k)) :
    ∀ k, TimeInv (l.foldl (timeStep u) acc k) := by
  induction l generalizing acc with
  | nil => exact hacc
  | cons g t ih =>
    refine ih _ ?_
    intro k
    unfold timeStep
    rcases hu : timeUpd u g with _ | ⟨kk, r⟩
    · exact hacc k
    · by_cases hk : k = kk
      · subst hk
        simp only [if_pos rfl]
        exact bumpTime_inv r (timeUpd_result u g k r hu) _ (hacc k)
      · simp only [if_neg hk]
        exact hacc k

lemma monthlyData_inv (games : List Game) (u : String) (k : Nat × Nat) :
    MonthInv (monthlyData games u k) := by
  unfold monthlyData
  exact monthly_fold_inv u _ _ (fun _ => by simp [MonthInv]) k

lemma timeStatsData_inv (games : List Game) (u : String) (k : String × Nat) :
    TimeInv (timeStatsData games u k) := by
  unfold timeStatsData
  exact time_fold_inv u _ _ (fun _ => by simp [TimeInv]) k

end GameAnalysis

lemma ratFloor_eq_floor (q : ℚ) : ratFloor q = ⌊q⌋ := Rat.floor_def.symm

lemma roundQ_eq_round (q : ℚ) : roundQ q = round q := by
  rw [roundQ, ratFloor_eq_floor, round_eq]

lemma round1_bounds (q : ℚ) (h0 : 0 ≤ q) (h1 : q ≤ 100) :
    0 ≤ round1 q ∧ round1 q ≤ 100 := by
  unfold round1
  rw [roundQ_eq_round]
  have hlo : (0 : ℤ) ≤ round (q * 10) := by
    rw [round_eq]
    exact Int.floor_nonneg.mpr (by linarith)
  have hhi : round (q * 10) ≤ 1000 := by
    rw [round_eq]
    have h2 : ⌊(q * 10 + 1 / 2 : ℚ)⌋ ≤ ⌊(((1000 : ℤ) : ℚ) + (1 / 2 : ℚ))⌋ :=
      Int.floor_mono (by push_cast; linarith)
    have h3 : ⌊(((1000 : ℤ) : ℚ) + (1 / 2 : ℚ))⌋ = 1000 + ⌊(1 / 2 : ℚ)⌋ :=
      Int.floor_int_add 1000 (1 / 2 : ℚ)
    have h4 : ⌊(1 / 2 : ℚ)⌋ = 0 := by
      rw [Int.floor_eq_zero_iff]
      constructor <;> norm_num
    omega
  constructor
  · have hc : (0 : ℚ) ≤ ((round (q * 10) : ℤ) : ℚ) := by exact_mod_cast hlo
    linarith
  · have hc : ((round (q * 10) : ℤ) : ℚ) ≤ 1000 := by exact_mod_cast hhi
    linarith

/-! ## Claim theorems -/

/-- C4 (confirmed): on three consecutive games sorted ascending by
end_time, all three ending in the same hour-of-day, with normalized
results [win, win, loss] for the target user, `analyze_streaks` counts
2 adjacent pairs toward the total-win-streaks denominator, 1 pair toward
the win-after-win numerator, and returns a 50% win-after-win
probability. -/
theorem claim_C4_streak_counts :
    (Consecutive.streakState c4games "alice").total_win_streaks = 2
  ∧ (Consecutive.streakState c4games "alice").win_after_win = 1
  ∧ (Consecutive.analyze_streaks c4games "alice").1 = 50 := by
  refine ⟨by decide, by decide, ?_⟩
  show Consecutive.calculate_probability 1 2 = 50
  norm_num [Consecutive.calculate_probability]

/-- C10 (code_bug): on an empty record sequence `analyze_games` does
return all-zero counts and rates, but
`calculate_average_and_median_games` evaluates `median([])`, which raises
`StatisticsError` (modelled as `Except.error`) instead of reporting 0. -/
theorem claim_C10_empty_input :
    DailyProba.calculate_average_and_median_games [] =
      Except.error "no median for empty data"
  ∧ GameAnalysis.analyze_games [] "username" =
      { total_games := 0, wins := 0, losses := 0, timeouts := 0,
        win_rate := 0, timeout_rate := 0 } := by
  exact ⟨rfl, by decide⟩

/-- C2 counterexample: a record matching neither side is still counted in
`analyze_games`' `total_games` tally (the rate denominator), contrary to
the claim that it contributes to no total-games tally. -/
theorem claim_C2_counterexample :
    c2game.white.username ≠ "carol" ∧ c2game.black.username ≠ "carol"
  ∧ (GameAnalysis.analyze_games [c2game] "carol").total_games = 1 := by
  decide

/-- C7 counterexample: a record with a present end_time, a matching
username and the unknown result string "stalemate" is NOT counted toward
the bucket's games_played — `generate_monthly_report` and
`analyze_time_stats` skip it entirely (`if result:`), contrary to the
claim. -/
theorem claim_C7_counterexample :
    staleGame.end_time = some 36060
  ∧ staleGame.white.username = "alice"
  ∧ staleGame.white.result = "stalemate"
  ∧ (GameAnalysis.monthlyData [staleGame] "alice" (monthKey 36060)).games = 0
  ∧ (GameAnalysis.timeStatsData [staleGame] "alice" (dayName 36060, hourOf 36060)).games_played = 0 := by
  decide

/-- C9 counterexample: "Alice" and "alice" agree up to letter case, yet
`game_analysis.get_game_result` compares usernames case-sensitively and
classifies nothing for the record. -/
theorem claim_C9_counterexample :
    lowerAscii "Alice" = lowerAscii "alice"
  ∧ GameAnalysis.get_game_result
      { end_time := some 36000, white := ⟨"Alice", "win", 0⟩,
        black := ⟨"bob", "checkmated", 0⟩ } "alice" = none := by
  decide

/-- C1 counterexample: at the `get_statistics` aggregation call site a
matching side's result string "lose" is counted as a draw, not a loss;
and `consecutive.get_game_result` maps "timeout" directly to loss rather
than to a timeout classification. -/
theorem claim_C1_counterexample :
    (ChessAnalyzer.get_statistics
        [{ end_time := some 36000, white := ⟨"Kalel1130", "lose", 0⟩,
           black := ⟨"bob", "win", 0⟩ }]).losses = 0
  ∧ (ChessAnalyzer.get_statistics
        [{ end_time := some 36000, white := ⟨"Kalel1130", "lose", 0⟩,
           black := ⟨"bob", "win", 0⟩ }]).draws = 1
  ∧ Consecutive.get_game_result
      { end_time := some 36000, white := ⟨"alice", "timeout", 0⟩,
        black := ⟨"bob", "win", 0⟩ } "alice" = some "loss" := by
  decide

/-- C6 counterexample: with games [win, stalemate, win] all in the same
hour, the record with no normalized result is skipped without resetting
`previous_result`/`previous_hour`, so the two wins around it DO form an
adjacent pair: the win-streak denominator and numerator are both 1,
contrary to the claim that the chain is broken. -/
theorem claim_C6_counterexample :
    Consecutive.get_game_result staleGame "alice" = none
  ∧ (Consecutive.streakState [winGameA, staleGame, winGameB] "alice").total_win_streaks = 1
  ∧ (Consecutive.streakState [winGameA, staleGame, winGameB] "alice").win_after_win = 1 := by
  decide

/-- Python `round1` of a bucket rate `count/games*100` stays within [0, 100]
whenever `count ≤ games` (including `games = 0`, where `ℚ` division by
zero gives 0). -/
lemma rate1_bounds (a b : Nat) (hab : a ≤ b) :
    0 ≤ round1 ((a : ℚ) / b * 100) ∧ round1 ((a : ℚ) / b * 100) ≤ 100 := by
  rcases Nat.eq_zero_or_pos b with hb | hb
  · subst hb
    have ha : a = 0 := Nat.le_zero.mp hab
    subst ha
    have hz : roundQ 0 = 0 := by rw [roundQ_eq_round, round_zero]
    norm_num [round1, hz]
  · have hbq : (0 : ℚ) < b := by exact_mod_cast hb
    have h0 : 0 ≤ (a : ℚ) / b * 100 := by positivity
    have h1 : (a : ℚ) / b * 100 ≤ 100 := by
      have hd : (a : ℚ) / b ≤ 1 := by
        rw [div_le_one hbq]
        exact_mod_cast hab
      linarith
    exact round1_bounds _ h0 h1

/-- C3 (confirmed): every rate computation yields 0 on a zero denominator
and `count / games * 100` otherwise — `calculate_probability` (used by
the streak and sequence analyzers for all four probabilities) and the
`analyze_games` win/timeout rates. -/
theorem claim_C3_zero_denominator_rates (n d : Nat) (games : List Game) (u : String) :
    Consecutive.calculate_probability n d = (if d = 0 then 0 else (n : ℚ) / d * 100)
  ∧ (GameAnalysis.analyze_games games u).win_rate =
      (if (GameAnalysis.analyze_games games u).total_games = 0 then 0
       else ((GameAnalysis.analyze_games games u).wins : ℚ) /
         (GameAnalysis.analyze_games games u).total_games * 100)
  ∧ (GameAnalysis.analyze_games games u).timeout_rate =
      (if (GameAnalysis.analyze_games games u).total_games = 0 then 0
       else ((GameAnalysis.analyze_games games u).timeouts : ℚ) /
         (GameAnalysis.analyze_games games u).total_games * 100)
  ∧ Consecutive.analyze_streaks games u =
      (Consecutive.calculate_probability (Consecutive.streakState games u).win_after_win
        (Consecutive.streakState games u).total_win_streaks,
       Consecutive.calculate_probability (Consecutive.streakState games u).loss_after_loss
        (Consecutive.streakState games u).total_loss_streaks)
  ∧ Consecutive.analyze_sequences games u =
      (Consecutive.calculate_probability (Consecutive.seqLoop u {} games).win_after_win_loss
        (Consecutive.seqLoop u {} games).total_win_loss,
       Consecutive.calculate_probability (Consecutive.seqLoop u {} games).win_after_loss_win
        (Consecutive.seqLoop u {} games).total_loss_win) := by
  refine ⟨?_, ?_, ?_, rfl, rfl⟩
  · unfold Consecutive.calculate_probability
    by_cases hd : d = 0 <;> simp [hd]
  · simp only [GameAnalysis.analyze_games]
    rcases Nat.eq_zero_or_pos games.length with h | h
    · simp [h]
    · have hne : games.length ≠ 0 := Nat.pos_iff_ne_zero.mp h
      simp [h, hne]
  · simp only [GameAnalysis.analyze_games]
    rcases Nat.eq_zero_or_pos games.length with h | h
    · simp [h]
    · have hne : games.length ≠ 0 := Nat.pos_iff_ne_zero.mp h
      simp [h, hne]

/-- C8 (confirmed): every bucket of `generate_monthly_report` and
`analyze_time_stats`, at every key, satisfies
`wins + losses ≤ games_played`, and every reported rate (win, loss and
timeout percentages, rounded to one decimal) lies in [0, 100]. -/
theorem claim_C8_bucket_invariants (games : List Game) (u : String) :
    (∀ mk : Nat × Nat,
      (GameAnalysis.monthlyData games u mk).wins +
          (GameAnalysis.monthlyData games u mk).losses ≤
        (GameAnalysis.monthlyData games u mk).games
      ∧ 0 ≤ GameAnalysis.monthly_win_rate (GameAnalysis.monthlyData games u mk)
      ∧ GameAnalysis.monthly_win_rate (GameAnalysis.monthlyData games u mk) ≤ 100
      ∧ 0 ≤ GameAnalysis.monthly_timeout_rate (GameAnalysis.monthlyData games u mk)
      ∧ GameAnalysis.monthly_timeout_rate (GameAnalysis.monthlyData games u mk) ≤ 100)
  ∧ (∀ tk : String × Nat,
      (GameAnalysis.timeStatsData games u tk).wins +
          (GameAnalysis.timeStatsData games u tk).losses ≤
        (GameAnalysis.timeStatsData games u tk).games_played
      ∧ 0 ≤ GameAnalysis.time_win_rate (GameAnalysis.timeStatsData games u tk)
      ∧ GameAnalysis.time_win_rate (GameAnalysis.timeStatsData games u tk) ≤ 100
      ∧ 0 ≤ GameAnalysis.time_loss_rate (GameAnalysis.timeStatsData games u tk)
      ∧ GameAnalysis.time_loss_rate (GameAnalysis.timeStatsData games u tk) ≤ 100
      ∧ 0 ≤ GameAnalysis.time_timeout_rate (GameAnalysis.timeStatsData games u tk)
      ∧ GameAnalysis.time_timeout_rate (GameAnalysis.timeStatsData games u tk) ≤ 100) := by
  constructor
  · intro mk
    obtain ⟨hsum, hto⟩ := GameAnalysis.monthlyData_inv games u mk
    set d := GameAnalysis.monthlyData games u mk with hd
    have hw : d.wins ≤ d.games := by omega
    have ht : d.timeouts ≤ d.games := by omega
    refine ⟨by omega, ?_, ?_, ?_, ?_⟩
    · unfold GameAnalysis.monthly_win_rate
      split_ifs
      · exact (rate1_bounds d.wins d.games hw).1
      · norm_num
    · unfold GameAnalysis.monthly_win_rate
      split_ifs
      · exact (rate1_bounds d.wins d.games hw).2
      · norm_num
    · unfold GameAnalysis.monthly_timeout_rate
      split_ifs
      · exact (rate1_bounds d.timeouts d.games ht).1
      · norm_num
    · unfold GameAnalysis.monthly_timeout_rate
      split_ifs
      · exact (rate1_bounds d.timeouts d.games ht).2
      · norm_num
  · intro tk
    have hsum := GameAnalysis.timeStatsData_inv games u tk
    unfold GameAnalysis.TimeInv at hsum
    set d := GameAnalysis.timeStatsData games u tk with hd
    have hw : d.wins ≤ d.games_played := by omega
    have hl : d.losses ≤ d.games_played := by omega
    have ht : d.timeouts ≤ d.games_played := by omega
    exact ⟨by omega,
      (rate1_bounds d.wins d.games_played hw).1,
      (rate1_bounds d.wins d.games_played hw).2,
      (rate1_bounds d.losses d.games_played hl).1,
      (rate1_bounds d.losses d.games_played hl).2,
      (rate1_bounds d.timeouts d.games_played ht).1,
      (rate1_bounds d.timeouts d.games_played ht).2⟩

/-- C1 (amended): for a matching side with result string `s`,
`game_analysis.get_game_result` maps win→win, timeout→timeout,
checkmated/resigned/lose/abandoned→loss and everything else to `None`;
`consecutive.get_game_result` folds timeout into loss; and
`get_statistics` counts only timeout/checkmated/resigned as losses,
classifying lose, abandoned and every unmapped string as a draw — in all
three an unmapped string is never counted as a win, loss or timeout. -/
theorem claim_C1_result_mapping (s : String) :
    GameAnalysis.get_game_result
        { end_time := some 36000, white := ⟨"alice", s, 0⟩, black := ⟨"bob", "", 0⟩ } "alice"
      = (if s = "win" then some "win"
         else if s = "timeout" then some "timeout"
         else if s = "checkmated" ∨ s = "resigned" ∨ s = "lose" ∨ s = "abandoned" then
           some "loss"
         else none)
  ∧ Consecutive.get_game_result
        { end_time := some 36000, white := ⟨"alice", s, 0⟩, black := ⟨"bob", "", 0⟩ } "alice"
      = (if s = "win" then some "win"
         else if s = "checkmated" ∨ s = "timeout" ∨ s = "resigned" ∨ s = "lose" ∨
             s = "abandoned" then some "loss"
         else none)
  ∧ ChessAnalyzer.get_statistics
        [{ end_time := some 36000, white := ⟨"Kalel1130", s, 0⟩, black := ⟨"bob", "", 0⟩ }]
      = { total_games := 1
          wins := if s = "win" then 1 else 0
          losses := if s = "timeout" ∨ s = "checkmated" ∨ s = "resigned" then 1 else 0
          draws :=
            if s = "win" ∨ s = "timeout" ∨ s = "checkmated" ∨ s = "resigned" then 0
            else 1 } := by
  refine ⟨?_, ?_, ?_⟩
  · simp only [GameAnalysis.get_game_result]
    norm_num
  · simp only [Consecutive.get_game_result]
    norm_num
  · have hk : lowerAscii "Kalel1130" = "kalel1130" := by decide
    simp only [ChessAnalyzer.get_statistics, List.foldl_cons, List.foldl_nil,
      ChessAnalyzer.statsStep, ChessAnalyzer.get_player_result, List.length_cons,
      List.length_nil, hk]
    norm_num
    split_ifs <;> simp_all

/-- C2 (amended): a record matching neither side normalizes to `None` and
contributes to no wins/losses/timeouts tally and to no monthly or
day-hour bucket; however `analyze_games` still counts it in
`total_games` (its rate denominator), and `get_player_result` falls back
to the black side's result for such a record. -/
theorem claim_C2_unmatched_record (g : Game) (u : String) (l1 l2 : List Game)
    (hw : g.white.username ≠ u) (hb : g.black.username ≠ u) :
    GameAnalysis.get_game_result g u = none
  ∧ (GameAnalysis.analyze_games (l1 ++ g :: l2) u).wins =
      (GameAnalysis.analyze_games (l1 ++ l2) u).wins
  ∧ (GameAnalysis.analyze_games (l1 ++ g :: l2) u).losses =
      (GameAnalysis.analyze_games (l1 ++ l2) u).losses
  ∧ (GameAnalysis.analyze_games (l1 ++ g :: l2) u).timeouts =
      (GameAnalysis.analyze_games (l1 ++ l2) u).timeouts
  ∧ (GameAnalysis.analyze_games (l1 ++ g :: l2) u).total_games =
      (GameAnalysis.analyze_games (l1 ++ l2) u).total_games + 1
  ∧ (∀ k, GameAnalysis.monthlyData (l1 ++ g :: l2) u k =
      GameAnalysis.monthlyData (l1 ++ l2) u k)
  ∧ (∀ k, GameAnalysis.timeStatsData (l1 ++ g :: l2) u k =
      GameAnalysis.timeStatsData (l1 ++ l2) u k)
  ∧ (lowerAscii g.white.username ≠ "kalel1130" →
      ChessAnalyzer.get_player_result g = g.black.result) := by
  have hres := GameAnalysis.get_game_result_none_of_no_match g u hw hb
  have htally : ∀ init : GameAnalysis.Tally,
      List.foldl (GameAnalysis.tallyStep u) init (l1 ++ g :: l2) =
        List.foldl (GameAnalysis.tallyStep u) init (l1 ++ l2) :=
    fun init => foldl_middle_skip _ g
      (fun b => GameAnalysis.tallyStep_skip u b g hres) l1 l2 init
  refine ⟨hres, ?_, ?_, ?_, ?_, ?_, ?_, ?_⟩
  · simp [GameAnalysis.analyze_games, htally]
  · simp [GameAnalysis.analyze_games, htally]
  · simp [GameAnalysis.analyze_games, htally]
  · simp [GameAnalysis.analyze_games]
    omega
  · intro k
    rw [GameAnalysis.monthlyData_middle u g (GameAnalysis.monthlyUpd_none u g hres) l1 l2]
  · intro k
    rw [GameAnalysis.timeStatsData_middle u g (GameAnalysis.timeUpd_none u g hres) l1 l2]
  · intro hkw
    simp [ChessAnalyzer.get_player_result, hkw]

/-- C2 witness: the amended statement applied to a concrete record whose
sides are "dave" and "bob" while the target user is "carol". -/
theorem claim_C2_witness :
    GameAnalysis.get_game_result c2game "carol" = none
  ∧ (GameAnalysis.analyze_games ([] ++ c2game :: []) "carol").total_games =
      (GameAnalysis.analyze_games ([] ++ []) "carol").total_games + 1
  ∧ GameAnalysis.monthlyData ([] ++ c2game :: []) "carol" (monthKey 36000) =
      GameAnalysis.monthlyData ([] ++ []) "carol" (monthKey 36000)
  ∧ ChessAnalyzer.get_player_result c2game = c2game.black.result := by
  obtain ⟨h1, _, _, _, h5, h6, _, h8⟩ :=
    claim_C2_unmatched_record c2game "carol" [] [] (by decide) (by decide)
  exact ⟨h1, h5, h6 (monthKey 36000), h8 (by decide)⟩

/-- C6 (amended): in both the streak and the sequence analyzer, a record
with no normalized result is skipped WITHOUT touching the loop state —
in particular `previous_result`/`previous_hour` keep pointing at the last
classified record, so the records before and after the skipped one can
still form an adjacent pair (the chain is NOT broken). -/
theorem claim_C6_unknown_skipped (u : String) (st : Consecutive.StreakState)
    (st2 : Consecutive.SeqState) (g : Game) (rest : List Game)
    (h : Consecutive.get_game_result g u = none) :
    Consecutive.streakStep u st g = st
  ∧ Consecutive.seqLoop u st2 (g :: rest) = Consecutive.seqLoop u st2 rest := by
  constructor
  · unfold Consecutive.streakStep
    cases het : g.end_time with
    | none => rfl
    | some t => simp [h]
  · rw [Consecutive.seqLoop]
    cases het : g.end_time with
    | none => rfl
    | some t => simp [h]

/-- C6 witness: the amended statement applied to a stalemate record. -/
theorem claim_C6_witness :
    Consecutive.streakStep "alice" {} staleGame = {}
  ∧ Consecutive.seqLoop "alice" {} [staleGame] = Consecutive.seqLoop "alice" {} [] :=
  claim_C6_unknown_skipped "alice" {} {} staleGame [] (by decide)

/-- C7 (amended): a record with a present end_time and a matching
username whose result string is outside the known vocabulary normalizes
to `None` and is excluded from the bucketed aggregations ENTIRELY: it
contributes to no bucket's games_played either (not merely excluded from
wins/losses/timeouts). -/
theorem claim_C7_unknown_result_excluded (g : Game) (u : String) (l1 l2 : List Game)
    (hmatch : g.white.username = u ∨ g.black.username = u)
    (hres : GameAnalysis.get_game_result g u = none) :
    (∀ k, GameAnalysis.monthlyData (l1 ++ g :: l2) u k =
      GameAnalysis.monthlyData (l1 ++ l2) u k)
  ∧ (∀ k, GameAnalysis.timeStatsData (l1 ++ g :: l2) u k =
      GameAnalysis.timeStatsData (l1 ++ l2) u k) := by
  constructor
  · intro k
    rw [GameAnalysis.monthlyData_middle u g (GameAnalysis.monthlyUpd_none u g hres) l1 l2]
  · intro k
    rw [GameAnalysis.timeStatsData_middle u g (GameAnalysis.timeUpd_none u g hres) l1 l2]

/-- C7 witness: the amended statement applied to a stalemate record whose
white side is the target user. -/
theorem claim_C7_witness :
    GameAnalysis.monthlyData ([] ++ staleGame :: []) "alice" (monthKey 36060) =
      GameAnalysis.monthlyData ([] ++ []) "alice" (monthKey 36060)
  ∧ GameAnalysis.timeStatsData ([] ++ staleGame :: []) "alice" (dayName 36060, hourOf 36060) =
      GameAnalysis.timeStatsData ([] ++ []) "alice" (dayName 36060, hourOf 36060) := by
  obtain ⟨h1, h2⟩ :=
    claim_C7_unknown_result_excluded staleGame "alice" [] [] (Or.inl (by decide)) (by decide)
  exact ⟨h1 _, h2 _⟩

/-- C9 (amended): `game_analysis.get_game_result` matches usernames with
case-SENSITIVE equality (a record matching on neither side exactly is
unclassified), while `views.process_game` strips and lower-cases both
sides before comparing, and `chess_analyzer` compares the lower-cased
white username against the hard-coded "kalel1130", falling back to the
black side's result otherwise. -/
theorem claim_C9_username_matching (g : Game) (u : String) :
    (g.white.username ≠ u → g.black.username ≠ u →
      GameAnalysis.get_game_result g u = none)
  ∧ (lowerAscii (String.mk (stripChars g.white.username.data)) = lowerAscii u →
      (Views.process_game g u).player_color = some "white"
      ∧ (Views.process_game g u).opponent_username =
          some (String.mk (stripChars g.black.username.data)))
  ∧ (lowerAscii g.white.username = "kalel1130" →
      ChessAnalyzer.get_player_result g = g.white.result)
  ∧ (lowerAscii g.white.username ≠ "kalel1130" →
      ChessAnalyzer.get_player_result g = g.black.result) := by
  refine ⟨?_, ?_, ?_, ?_⟩
  · intro hw hb
    exact GameAnalysis.get_game_result_none_of_no_match g u hw hb
  · intro hmatch
    simp [Views.process_game, hmatch]
  · intro hk
    simp [ChessAnalyzer.get_player_result, hk]
  · intro hk
    simp [ChessAnalyzer.get_player_result, hk]

/-- C9 witness: the amended statement applied to a record whose white
username " Alice " matches the target "ALICE" only after stripping and
lower-casing, and to the hard-coded chess_analyzer name. -/
theorem claim_C9_witness :
    (Views.process_game
        { end_time := some 36000, white := ⟨" Alice ", "win", 1200⟩,
          black := ⟨"bob", "checkmated", 1100⟩ } "ALICE").player_color = some "white"
  ∧ GameAnalysis.get_game_result
      { end_time := some 36000, white := ⟨"Alice", "win", 0⟩,
        black := ⟨"bob", "checkmated", 0⟩ } "alice" = none
  ∧ ChessAnalyzer.get_player_result
      { end_time := some 36000, white := ⟨"KALEL1130", "win", 0⟩,
        black := ⟨"bob", "checkmated", 0⟩ } = "win" := by
  refine ⟨?_, ?_, ?_⟩
  · exact ((claim_C9_username_matching _ "ALICE").2.1 (by decide)).1
  · exact (claim_C9_username_matching _ "alice").1 (by decide) (by decide)
  · exact (claim_C9_username_matching _ "x").2.2.1 (by decide)

section

attribute [local semireducible] Rat.add Rat.sub Rat.mul Rat.inv

/-- C5 counterexample: on the spec's example text,
`get_move_timing_analysis` returns no timing entries at all (its clock
regex `\d+:\d+\.\d+` does not match the `H:MM:SS` clocks) — in
particular no 10-second entry for Nf3 — while `process_chess_data` DOES
emit a timing entry for move 1 (e4), which the claim says is excluded. -/
theorem claim_C5_counterexample :
    ChessAnalyzer.get_move_timing_analysis c5gameCA = []
  ∧ ({ move_number := "1", move := "e4", clock := "0:05:00", time_spent := 0 : TimeMgmt.Think } ∈
      ((TimeMgmt.process_chess_data [c5gameTM] "Kalel1130" 50).headD
        { player_color := "", player_top_thinks := [] }).player_top_thinks) := by
  constructor
  · decide
  · decide

/-- C5 (amended): on the spec's example text,
`chess_analyzer.get_move_timing_analysis` returns the empty list (its
clock pattern requires a fractional-seconds `M:SS.d` format and matches
nothing in `H:MM:SS` clocks), while `time_mgmt.process_chess_data`
parses the text and reports 10 seconds spent on White's move 2 (Nf3) —
but it also emits an entry for move 1 (e4) with
`time_spent = time_control − 300 = 0` instead of excluding the first
ply. -/
theorem claim_C5_move_timing :
    ChessAnalyzer.get_move_timing_analysis c5gameCA = []
  ∧ (TimeMgmt.process_chess_data [c5gameTM] "Kalel1130" 50).map
      (fun p => (p.player_color, p.player_top_thinks))
      = [("White",
          [{ move_number := "2", move := "Nf3", clock := "0:04:50", time_spent := 10 },
           { move_number := "1", move := "e4", clock := "0:05:00", time_spent := 0 }])] := by
  constructor
  · decide
  · decide

end
